import Mathlib

/-!
Verification of the client Form Controller of the BEP-Experiment repository
(src/react-form-app/src/App.js), shallowly embedded in Lean 4.

Strings are modelled as lists of characters (`Str`).  The component state
(`AppState`) collects the four React state cells: `form` (FormState),
`preview` (the PreviewHandle), `errors` (ValidationResult) and
`submissions` (the in-memory submission log), together with `storage`, the
`react_form_submissions` entry of the browser's localStorage, modelled as the
decoded list of records (JSON serialization is injective on this data, so the
list itself stands for the stored string; `none` means the key is absent).
-/

/-- Strings of the JS program, as lists of characters. -/
abbrev Str := List Char

/-- Coerce a Lean string literal to `Str`. -/
def strL (s : String) : Str := s.data

/-- FormState: the `form` React state cell of `App`
(`useState({name:"", email:"", age:"", gender:"", bio:"", hobbies:[], agree:false, profile:null})`).
The optional `profile` File object is modelled by an opaque numeric file
identifier. -/
structure Form where
  name : Str
  email : Str
  age : Str
  gender : Str
  bio : Str
  hobbies : List Str
  agree : Bool
  profile : Option Nat
deriving DecidableEq, Repr

/-- The all-default FormState used at initialization and on reset. -/
def defaultForm : Form :=
  { name := [], email := [], age := [], gender := [], bio := [],
    hobbies := [], agree := false, profile := none }

/-- The hobbies branch of `handleChange`:
`checked ? [...form.hobbies, value] : form.hobbies.filter((h) => h !== value)`. -/
def handleChangeHobbies (f : Form) (value : Str) (checked : Bool) : Form :=
  { f with hobbies :=
      if checked then f.hobbies ++ [value]
      else f.hobbies.filter (fun h => h != value) }

/-- A persisted SubmissionRecord, the `toSave` object of `saveSubmission`. -/
structure Record where
  name : Str
  email : Str
  age : Str
  gender : Str
  bio : Str
  hobbies : List Str
  profileUrl : Option Str
  timestamp : Str
deriving DecidableEq, Repr

/-- The per-field error object built by `validate` (keys `name`, `email`,
`age`, `gender`, `agree`; a `some` field is a present key). -/
structure Errors where
  name : Option Str
  email : Option Str
  age : Option Str
  gender : Option Str
  agree : Option Str
deriving DecidableEq, Repr

/-- The empty error object `{}`. -/
def Errors.empty : Errors :=
  { name := none, email := none, age := none, gender := none, agree := none }

/-- `Object.keys(v).length > 0` is false exactly when no key is present. -/
def Errors.isEmpty (e : Errors) : Bool :=
  e.name.isNone && e.email.isNone && e.age.isNone && e.gender.isNone && e.agree.isNone

/-- Full component state of `App` plus the localStorage entry. -/
structure AppState where
  form : Form
  preview : Option Nat
  errors : Errors
  submissions : List Record
  storage : Option (List Record)
deriving DecidableEq, Repr

/-- `handleDelete(ts)`: filter out records with the given timestamp, set the
in-memory list and rewrite the localStorage entry in full. -/
def handleDelete (ts : Str) (st : AppState) : AppState :=
  let next := st.submissions.filter (fun s => s.timestamp != ts)
  { st with submissions := next, storage := some next }

-- ===================================================================
-- Theorems
-- ===================================================================

/-- C3 counterexample: the claim says a check event adds the hobby only if it
is absent, so checking an already-checked hobby leaves `hobbies` unchanged.
On the code, a check event appends unconditionally: checking `"coding"` when
`hobbies = ["coding"]` yields the duplicate list `["coding", "coding"]`. -/
theorem hobbies_check_not_idempotent :
    (handleChangeHobbies { defaultForm with hobbies := [strL "coding"] }
        (strL "coding") true).hobbies
      = [strL "coding", strL "coding"] ∧
    [strL "coding", strL "coding"] ≠ [strL "coding"] := by
  constructor
  · rfl
  · decide

/-- C3 (amended): a check event on the hobbies collection appends the value
unconditionally, so when the value is absent it is added (once, preserving
distinctness), but checking an already-present hobby duplicates it; an
uncheck event removes every occurrence of the value. -/
theorem hobbies_change_spec (f : Form) (v : Str) :
    (handleChangeHobbies f v true).hobbies = f.hobbies ++ [v] ∧
    (v ∉ f.hobbies → f.hobbies.Nodup →
      (handleChangeHobbies f v true).hobbies.Nodup) ∧
    (handleChangeHobbies f v false).hobbies
        = f.hobbies.filter (fun h => h != v) ∧
    v ∉ (handleChangeHobbies f v false).hobbies := by
  refine ⟨rfl, ?_, rfl, ?_⟩
  · intro hab hnd
    simp [handleChangeHobbies, List.nodup_append, hnd, hab]
  · simp [handleChangeHobbies]

/-- C3 witness: the amended behaviour at a concrete input: checking
`"music"` when absent adds it keeping the list duplicate-free, and
unchecking `"music"` removes it. -/
theorem hobbies_change_spec_witness :
    (handleChangeHobbies { defaultForm with hobbies := [strL "coding"] }
        (strL "music") true).hobbies.Nodup ∧
    strL "music" ∉ (handleChangeHobbies
        { defaultForm with hobbies := [strL "coding", strL "music"] }
        (strL "music") false).hobbies :=
  ⟨(hobbies_change_spec { defaultForm with hobbies := [strL "coding"] }
      (strL "music")).2.1 (by decide) (by decide),
   (hobbies_change_spec { defaultForm with hobbies := [strL "coding", strL "music"] }
      (strL "music")).2.2.2⟩

/-- C6: `delete(t)` removes the unique record with timestamp `t` from both
the in-memory sequence and the durable snapshot (rewritten in full); when no
record has timestamp `t` it is a no-op on the sequence (the snapshot is
rewritten with the identical sequence) and no error is raised. -/
theorem handleDelete_correct (st : AppState) (t : Str) :
    ((∀ x ∈ st.submissions, x.timestamp ≠ t) →
      (handleDelete t st).submissions = st.submissions ∧
      (handleDelete t st).storage = some st.submissions) ∧
    (∀ pre suf r, st.submissions = pre ++ r :: suf → r.timestamp = t →
      (∀ x ∈ pre, x.timestamp ≠ t) → (∀ x ∈ suf, x.timestamp ≠ t) →
      (handleDelete t st).submissions = pre ++ suf ∧
      (handleDelete t st).storage = some (pre ++ suf)) := by
  constructor
  · intro h
    have hfix : st.submissions.filter (fun s => s.timestamp != t) = st.submissions := by
      apply List.filter_eq_self.mpr
      intro a ha
      simpa using h a ha
    constructor <;> simp [handleDelete, hfix]
  · intro pre suf r hsplit hr hpre hsuf
    have hfilter : st.submissions.filter (fun s => s.timestamp != t) = pre ++ suf := by
      rw [hsplit, List.filter_append, List.filter_cons]
      have hpref : pre.filter (fun s => s.timestamp != t) = pre := by
        apply List.filter_eq_self.mpr
        intro a ha
        simpa using hpre a ha
      have hsuff : suf.filter (fun s => s.timestamp != t) = suf := by
        apply List.filter_eq_self.mpr
        intro a ha
        simpa using hsuf a ha
      simp [hr, hpref, hsuff]
    constructor <;> simp [handleDelete, hfilter]

/-- C10: after `delete(t)` no record with timestamp `t` remains anywhere,
the in-memory sequence and the rewritten snapshot agree, and every record is
removed even when several share the timestamp (filter semantics). -/
theorem handleDelete_removes_all (st : AppState) (t : Str) :
    (∀ r ∈ (handleDelete t st).submissions, r.timestamp ≠ t) ∧
    (handleDelete t st).storage = some ((handleDelete t st).submissions) ∧
    (handleDelete t st).submissions
      = st.submissions.filter (fun s => s.timestamp != t) := by
  refine ⟨?_, rfl, rfl⟩
  intro r hr
  have := List.of_mem_filter hr
  simpa using this

/-- A concrete record with the given timestamp, for witnesses. -/
def recT (ts : String) : Record :=
  { name := strL "A", email := strL "a@x.com", age := [], gender := strL "male",
    bio := [], hobbies := [], profileUrl := none, timestamp := strL ts }

/-- A concrete three-record log, for witnesses. -/
def stDel : AppState :=
  { form := defaultForm, preview := none, errors := Errors.empty,
    submissions := [recT "t1", recT "t2", recT "t3"],
    storage := some [recT "t1", recT "t2", recT "t3"] }

/-- C6 witness: deleting the middle timestamp of a concrete three-record log
removes exactly that record from the sequence and from the snapshot. -/
theorem handleDelete_correct_witness :
    (handleDelete (strL "t2") stDel).submissions = [recT "t1"] ++ [recT "t3"] ∧
    (handleDelete (strL "t2") stDel).storage = some ([recT "t1"] ++ [recT "t3"]) :=
  (handleDelete_correct stDel (strL "t2")).2 [recT "t1"] [recT "t3"] (recT "t2")
    (by decide) (by decide) (by decide) (by decide)

/-- A concrete log in which two records share a timestamp, for witnesses. -/
def stDup : AppState :=
  { form := defaultForm, preview := none, errors := Errors.empty,
    submissions := [recT "t1", recT "u", recT "t1"],
    storage := some [recT "t1", recT "u", recT "t1"] }

/-- C10 witness: in a log where two records share timestamp `"t1"`, the
surviving record of `delete("t1")` does not carry timestamp `"t1"`. -/
theorem handleDelete_removes_all_witness :
    (recT "u").timestamp ≠ strL "t1" :=
  (handleDelete_removes_all stDup (strL "t1")).1 (recT "u") (by decide)

/-- The JS regex class `\s` (also ECMA WhiteSpace ∪ LineTerminator, as
stripped by `trim()` and by `Number()`): tab, line feed, vertical tab, form
feed, carriage return, space, no-break space U+00A0, Ogham space U+1680, the
en-quad…hair-space range U+2000–U+200A, the line and paragraph separators
U+2028/U+2029, narrow no-break space U+202F, mathematical space U+205F,
ideographic space U+3000, and the BOM U+FEFF. -/
def isJsSpace (c : Char) : Bool :=
  c = ' ' || c = '\t' || c = '\n' || c = '\r' || c = '\x0b' || c = '\x0c' ||
  c = '\u00a0' || c = '\u1680' || ('\u2000' ≤ c && c ≤ '\u200a') ||
  c = '\u2028' || c = '\u2029' || c = '\u202f' || c = '\u205f' ||
  c = '\u3000' || c = '\ufeff'

/-- JS `String.prototype.trim()`: strip whitespace from both ends. -/
def trim (s : Str) : Str :=
  ((s.dropWhile isJsSpace).reverse.dropWhile isJsSpace).reverse

/-- The regex character class `[^@\s]`: anything but `@` and whitespace. -/
def okChar (c : Char) : Bool := c != '@' && !isJsSpace c

/-- Split a list at the first occurrence of `c`: `some (pre, post)` with the
list equal to `pre ++ c :: post` and `c ∉ pre`, or `none` when `c` is absent. -/
def splitFirstAt (c : Char) : Str → Option (Str × Str)
  | [] => none
  | a :: rest =>
    if a = c then some ([], rest)
    else
      match splitFirstAt c rest with
      | none => none
      | some (pre, post) => some (a :: pre, post)

/-- The email test `/^[^@\s]+@[^@\s]+\.[^@\s]+$/.test(s)` of `validate`.
Writing `A` for the class `[^@\s]`: the `A+` before `@` cannot contain `@`,
so the `@` the regex consumes is the first `@` of the string; the rest must
be all-`A` (hence contain no further `@`) and must match `A+\.A+`, which —
since `.` itself belongs to `A` — holds exactly when some interior position
(neither first nor last) holds a literal dot. -/
def emailOk (s : Str) : Bool :=
  match splitFirstAt '@' s with
  | none => false
  | some (pre, post) =>
    !pre.isEmpty && pre.all okChar && post.all okChar &&
      decide ('.' ∈ (post.drop 1).dropLast)

/-- Whether a literal dot occurs strictly after the first `@` (equivalently,
after some `@`) of the string. -/
def hasDotAfterAt (s : Str) : Bool :=
  match splitFirstAt '@' s with
  | none => false
  | some (_, post) => decide ('.' ∈ post)

/-- Decimal digit test. -/
def isDigitCh (c : Char) : Bool := '0' ≤ c && c ≤ '9'

/-- Value of a string of decimal digits. -/
def digitsToNat (l : Str) : Nat :=
  l.foldl (fun acc c => 10 * acc + (c.toNat - '0'.toNat)) 0

/-- Split a list at the first character satisfying `p`. -/
def splitFirstBy (p : Char → Bool) : Str → Option (Str × Str)
  | [] => none
  | a :: rest =>
    if p a then some ([], rest)
    else
      match splitFirstBy p rest with
      | none => none
      | some (pre, post) => some (a :: pre, post)

/-- Hexadecimal digit test. -/
def isHexDigitCh (c : Char) : Bool :=
  ('0' ≤ c && c ≤ '9') || ('a' ≤ c && c ≤ 'f') || ('A' ≤ c && c ≤ 'F')

/-- Octal digit test. -/
def isOctDigitCh (c : Char) : Bool := '0' ≤ c && c ≤ '7'

/-- Binary digit test. -/
def isBinDigitCh (c : Char) : Bool := c = '0' || c = '1'

/-- Value of one hexadecimal digit. -/
def hexVal (c : Char) : Nat :=
  if '0' ≤ c && c ≤ '9' then c.toNat - '0'.toNat
  else if 'a' ≤ c && c ≤ 'f' then c.toNat - 'a'.toNat + 10
  else c.toNat - 'A'.toNat + 10

/-- Value of a digit string in base `b` under digit valuation `val`. -/
def digitsToNatBase (b : Nat) (val : Char → Nat) (l : Str) : Nat :=
  l.foldl (fun acc c => b * acc + val c) 0

/-- A value produced by the JS `Number()` conversion, before float64
rounding: `finite mant exp10` is the exact value `mant · 10 ^ exp10` of the
literal (exact scaled-decimal representation, not normalized), or an
infinity.  `none` at the use sites models NaN. -/
inductive JsNum where
  | finite (mant : Int) (exp10 : Int)
  | inf
  | negInf
deriving DecidableEq, Repr

/-- The mantissa of a `StrDecimalLiteral`: `DecimalDigits [. DecimalDigits]`
or `. DecimalDigits` (at least one digit on one side of the dot).  Returns
the digit string's value with the dot removed together with the number of
fractional digits, so the mantissa's exact value is
`digits · 10 ^ (- fracLen)`. -/
def parseDecMant (m : Str) : Option (Nat × Nat) :=
  match splitFirstAt '.' m with
  | none =>
    if !m.isEmpty && m.all isDigitCh then some (digitsToNat m, 0) else none
  | some (a, b) =>
    if (!a.isEmpty || !b.isEmpty) && a.all isDigitCh && b.all isDigitCh then
      some (digitsToNat (a ++ b), b.length)
    else none

/-- An `ExponentPart` without its `e`/`E` marker: optional sign, then at
least one decimal digit. -/
def parseExp (x : Str) : Option Int :=
  let sgnRest : Int × Str :=
    match x with
    | '-' :: r => (-1, r)
    | '+' :: r => (1, r)
    | _ => (1, x)
  if !sgnRest.2.isEmpty && sgnRest.2.all isDigitCh then
    some (sgnRest.1 * digitsToNat sgnRest.2)
  else none

/-- An unsigned decimal literal: mantissa with an optional exponent part
introduced by `e` or `E` (the mantissa itself holds only digits and a dot,
so splitting at the first `e`/`E` is faithful to the grammar).  The result
`(m, e)` stands for the exact value `m · 10 ^ e`. -/
def parseDec (u : Str) : Option (Nat × Int) :=
  match splitFirstBy (fun c => c = 'e' || c = 'E') u with
  | none => (parseDecMant u).map (fun p => (p.1, -(p.2 : Int)))
  | some (m, x) =>
    match parseDecMant m, parseExp x with
    | some p, some e => some (p.1, e - (p.2 : Int))
    | _, _ => none

/-- Model of the JS `Number()` string conversion used on `form.age`
(ECMA ToNumber on strings): strip whitespace; empty ⇒ 0; a `0x`/`0X`,
`0o`/`0O` or `0b`/`0B` prefix introduces an unsigned non-decimal integer
literal; otherwise an optional sign followed by `Infinity` or by a decimal
literal with optional fraction and exponent.  Everything else is NaN,
modelled as `none`.  A finite result is the exact value of the literal (as
`mant · 10 ^ exp10`); float64 rounding of that value is sign-preserving and
monotone, so for the two tests the program performs on it (`isNaN` and
`<= 0`) only the round-to-zero threshold in `JsNum.gt0` matters. -/
def jsNumber (s : Str) : Option JsNum :=
  let t := trim s
  if t = [] then some (JsNum.finite 0 0)
  else
    match t with
    | '0' :: 'x' :: r =>
      if !r.isEmpty && r.all isHexDigitCh then
        some (JsNum.finite (digitsToNatBase 16 hexVal r) 0)
      else none
    | '0' :: 'X' :: r =>
      if !r.isEmpty && r.all isHexDigitCh then
        some (JsNum.finite (digitsToNatBase 16 hexVal r) 0)
      else none
    | '0' :: 'o' :: r =>
      if !r.isEmpty && r.all isOctDigitCh then
        some (JsNum.finite (digitsToNatBase 8 hexVal r) 0)
      else none
    | '0' :: 'O' :: r =>
      if !r.isEmpty && r.all isOctDigitCh then
        some (JsNum.finite (digitsToNatBase 8 hexVal r) 0)
      else none
    | '0' :: 'b' :: r =>
      if !r.isEmpty && r.all isBinDigitCh then
        some (JsNum.finite (digitsToNatBase 2 hexVal r) 0)
      else none
    | '0' :: 'B' :: r =>
      if !r.isEmpty && r.all isBinDigitCh then
        some (JsNum.finite (digitsToNatBase 2 hexVal r) 0)
      else none
    | _ =>
      let sgnRest : Int × Str :=
        match t with
        | '-' :: r => (-1, r)
        | '+' :: r => (1, r)
        | _ => (1, t)
      if sgnRest.2 = strL "Infinity" then
        some (if sgnRest.1 < 0 then JsNum.negInf else JsNum.inf)
      else
        (parseDec sgnRest.2).map
          (fun p => JsNum.finite (sgnRest.1 * p.1) p.2)

/-- Whether the float64 value `Number()` produces is strictly positive.
Float64 round-to-nearest-even takes a positive exact value to zero exactly
when it is at most `2 ^ (-1075)`: values in `(0, 2^-1075)` round to `+0`,
`2^-1075` itself ties to the even mantissa (zero), and anything larger
rounds to at least the minimal subnormal `2^-1074`.  So for a finite parsed
value `mant · 10 ^ exp10`, the float is strictly positive iff `0 < mant`
and `mant · 10 ^ exp10 > 2 ^ (-1075)`, i.e. (for a negative exponent
`exp10 = -(k+1)`) iff `10 ^ (k+1) < mant · 2 ^ 1075`; for a nonnegative
exponent the value is at least 1.  Equivalently, the program's
`Number(...) <= 0` test on a non-NaN value is exactly `gt0 = false`. -/
def JsNum.gt0 : JsNum → Bool
  | JsNum.finite m e =>
    0 < m &&
      (match e with
        | Int.ofNat _ => true
        | Int.negSucc k => 10 ^ (k + 1) < m.toNat * 2 ^ 1075)
  | JsNum.inf => true
  | JsNum.negInf => false

/-- Error message constants of `validate`. -/
def msgNameReq : Str := strL "Name is required."

def msgEmailReq : Str := strL "Email is required."

def msgEmailBad : Str := strL "Enter a valid email."

def msgAgeBad : Str := strL "Enter a valid age."

def msgGenderReq : Str := strL "Please select your gender."

def msgAgreeReq : Str := strL "You must agree to the terms."

/-- The `validate` function of `App`.  The age branch mirrors
`if (form.age && (isNaN(Number(form.age)) || Number(form.age) <= 0))` with
JS truthiness of a string being non-emptiness; `gender` and the trimmed
`name`/`email` are likewise tested for truthiness/emptiness. -/
def validate (f : Form) : Errors :=
  { name := if trim f.name = [] then some msgNameReq else none
  , email :=
      if trim f.email = [] then some msgEmailReq
      else if emailOk f.email then none
      else some msgEmailBad
  , age :=
      if f.age = [] then none
      else
        match jsNumber f.age with
        | none => some msgAgeBad
        | some v => if v.gt0 then none else some msgAgeBad
  , gender := if f.gender = [] then some msgGenderReq else none
  , agree := if f.agree then none else some msgAgreeReq }

-- helper lemmas about splitFirstAt, dropLast and trim

lemma splitFirstAt_some {c : Char} :
    ∀ {s pre post : Str}, splitFirstAt c s = some (pre, post) → s = pre ++ c :: post := by
  intro s
  induction s with
  | nil => intro pre post h; simp [splitFirstAt] at h
  | cons a rest ih =>
    intro pre post h
    simp only [splitFirstAt] at h
    by_cases hac : a = c
    · rw [if_pos hac] at h
      simp only [Option.some.injEq, Prod.mk.injEq] at h
      obtain ⟨h1, h2⟩ := h
      subst h1
      subst h2
      simp [hac]
    · rw [if_neg hac] at h
      cases hsp : splitFirstAt c rest with
      | none => rw [hsp] at h; simp at h
      | some pq =>
        obtain ⟨p, q⟩ := pq
        rw [hsp] at h
        simp only [Option.some.injEq, Prod.mk.injEq] at h
        obtain ⟨h1, h2⟩ := h
        subst h2
        rw [← h1, List.cons_append, ih hsp]

lemma splitFirstAt_append {c : Char} (r : Str) :
    ∀ (x : Str), c ∉ x → splitFirstAt c (x ++ c :: r) = some (x, r)
  | [], _ => by simp [splitFirstAt]
  | a :: t, hx => by
    have hac : a ≠ c := by
      intro h
      exact hx (by simp [h])
    have ht : c ∉ t := fun hm => hx (List.mem_cons_of_mem a hm)
    simp only [List.cons_append, splitFirstAt]
    rw [if_neg hac]
    simp only [List.append_eq]
    rw [splitFirstAt_append r t ht]

lemma dot_mem_interior (y z : Str) (hy : y ≠ []) (hz : z ≠ []) :
    '.' ∈ ((y ++ '.' :: z).drop 1).dropLast := by
  cases y with
  | nil => exact absurd rfl hy
  | cons hy0 ty =>
    cases z with
    | nil => exact absurd rfl hz
    | cons hz0 tz =>
      have hdrop : ((hy0 :: ty ++ '.' :: hz0 :: tz).drop 1) = ty ++ '.' :: hz0 :: tz := by
        simp [List.drop]
      rw [hdrop, List.dropLast_append_cons]
      simp [List.dropLast_cons₂]

lemma dropWhile_isJsSpace_eq_self {l : Str} (h : ∀ c ∈ l, isJsSpace c = false) :
    l.dropWhile isJsSpace = l := by
  cases l with
  | nil => rfl
  | cons a t =>
    rw [List.dropWhile_cons, h a (List.mem_cons_self a t)]
    simp

lemma trim_eq_self {l : Str} (h : ∀ c ∈ l, isJsSpace c = false) : trim l = l := by
  unfold trim
  rw [dropWhile_isJsSpace_eq_self h,
    dropWhile_isJsSpace_eq_self (fun c hc => h c (List.mem_reverse.mp hc))]
  exact List.reverse_reverse l

/-- C4: the Validator flags `email` as required when the trimmed email is
empty; any non-empty string lacking an `@`, or lacking a `.` after the `@`,
gets an email error; and any string of the shape `x@y.z` — nonempty `x`,
`y`, `z` drawn from the class `[^@\s]` — gets no email error. -/
theorem email_validation (f : Form) :
    (trim f.email = [] → (validate f).email = some msgEmailReq) ∧
    (f.email ≠ [] → ('@' ∉ f.email ∨ hasDotAfterAt f.email = false) →
      (validate f).email ≠ none) ∧
    (∀ x y z : Str, x ≠ [] → y ≠ [] → z ≠ [] →
      x.all okChar → y.all okChar → z.all okChar →
      f.email = x ++ '@' :: (y ++ '.' :: z) →
      (validate f).email = none) := by
  refine ⟨?_, ?_, ?_⟩
  · intro h
    simp [validate, h]
  · intro _ hcond
    by_cases htr : trim f.email = []
    · simp [validate, htr]
    · have hbad : emailOk f.email = false := by
        cases hsp : splitFirstAt '@' f.email with
        | none => simp [emailOk, hsp]
        | some pq =>
          obtain ⟨pre, post⟩ := pq
          by_contra hok
          rw [Bool.not_eq_false] at hok
          simp only [emailOk, hsp, Bool.and_eq_true, decide_eq_true_eq] at hok
          obtain ⟨⟨⟨-, -⟩, -⟩, hdot⟩ := hok
          have hdotpost : '.' ∈ post :=
            List.mem_of_mem_drop (List.mem_of_mem_dropLast hdot)
          rcases hcond with hat | hnd
          · exact hat (by rw [splitFirstAt_some hsp]; simp)
          · simp only [hasDotAfterAt, hsp, decide_eq_false_iff_not] at hnd
            exact hnd hdotpost
      simp [validate, htr, hbad]
  · intro x y z hx hy hz hax hay haz heq
    have hatx : '@' ∉ x := by
      intro hm
      have h1 := List.all_eq_true.mp hax _ hm
      simp [okChar] at h1
    have hsp : splitFirstAt '@' f.email = some (x, y ++ '.' :: z) := by
      rw [heq]
      exact splitFirstAt_append _ x hatx
    have hnsp : ∀ c ∈ f.email, isJsSpace c = false := by
      intro c hc
      rw [heq] at hc
      rcases List.mem_append.mp hc with h1 | h2
      · have h3 := List.all_eq_true.mp hax _ h1
        simp only [okChar, Bool.and_eq_true, Bool.not_eq_true'] at h3
        exact h3.2
      · rcases List.mem_cons.mp h2 with h3 | h4
        · subst h3; decide
        · rcases List.mem_append.mp h4 with h5 | h6
          · have h7 := List.all_eq_true.mp hay _ h5
            simp only [okChar, Bool.and_eq_true, Bool.not_eq_true'] at h7
            exact h7.2
          · rcases List.mem_cons.mp h6 with h7 | h8
            · subst h7; decide
            · have h9 := List.all_eq_true.mp haz _ h8
              simp only [okChar, Bool.and_eq_true, Bool.not_eq_true'] at h9
              exact h9.2
    have htr : trim f.email = f.email := trim_eq_self hnsp
    have hnil : f.email ≠ [] := by rw [heq]; simp
    have hxe : x.isEmpty = false := by
      cases x with
      | nil => exact absurd rfl hx
      | cons _ _ => rfl
    have hpost : (y ++ '.' :: z).all okChar = true := by
      simp +decide [List.all_append, List.all_cons, hay, haz, okChar, isJsSpace]
    have hdot : '.' ∈ (((y ++ '.' :: z).drop 1).dropLast) := dot_mem_interior y z hy hz
    have hok : emailOk f.email = true := by
      simp only [emailOk, hsp, Bool.and_eq_true, decide_eq_true_eq]
      exact ⟨⟨⟨by simp [hxe], hax⟩, hpost⟩, hdot⟩
    simp [validate, htr, hnil, hok]

/-- Concrete forms exercising the three email cases, for witnesses. -/
def emailBadF : Form := { defaultForm with email := strL "bad" }

def emailAnaF : Form := { defaultForm with email := strL "ana@x.com" }

/-- C4 witness: the empty email is flagged required, `"bad"` (no `@`) gets
an email error, and `"ana@x.com"` gets none. -/
theorem email_validation_witness :
    (validate defaultForm).email = some msgEmailReq ∧
    (validate emailBadF).email ≠ none ∧
    (validate emailAnaF).email = none :=
  ⟨(email_validation defaultForm).1 (by decide),
   (email_validation emailBadF).2.1 (by decide) (Or.inl (by decide)),
   (email_validation emailAnaF).2.2 (strL "ana") (strL "x") (strL "com")
     (by decide) (by decide) (by decide) (by decide) (by decide) (by decide)
     (by decide)⟩

/-- C5: no age error when the age field is empty; for a non-empty age
string, an age error is recorded exactly when the string does not convert
(via `Number()`) to a number strictly greater than zero. -/
theorem age_validation (f : Form) :
    (f.age = [] → (validate f).age = none) ∧
    (f.age ≠ [] →
      ((validate f).age ≠ none ↔
        ¬ ∃ v, jsNumber f.age = some v ∧ v.gt0 = true)) := by
  constructor
  · intro h
    simp [validate, h]
  · intro h
    simp only [validate, if_neg h]
    cases hj : jsNumber f.age with
    | none =>
      simp [hj]
    | some v =>
      by_cases hv : v.gt0 = true
      · simp only [hj, if_pos hv]
        constructor
        · intro hcon
          exact absurd rfl hcon
        · intro hcon
          exact absurd ⟨v, rfl, hv⟩ hcon
      · simp only [hj, if_neg hv]
        constructor
        · rintro - ⟨v2, hv2, hpos⟩
          rw [Option.some.injEq] at hv2
          subst hv2
          exact hv hpos
        · intro _
          simp

/-- The `toSave` object built in `saveSubmission` from the submitted form
snapshot, the encoded `profileUrl`, and `new Date().toISOString()` — the
clock reading `ts` is an external input of the model (the `agree` flag and
the File object are dropped, exactly as in the source). -/
def mkRecord (f : Form) (profileUrl : Option Str) (ts : Str) : Record :=
  { name := f.name, email := f.email, age := f.age, gender := f.gender,
    bio := f.bio, hobbies := f.hobbies, profileUrl := profileUrl,
    timestamp := ts }

/-- `saveSubmission`: prepend the new record to the in-memory sequence, write
the whole sequence to localStorage, then reset the form and clear preview and
errors.  `persistOk` models whether `localStorage.setItem` succeeds; on
failure the exception propagates uncaught (`Except.error`), carrying the
state at the throw point: the in-memory `submissions` update was already
queued via `setSubmissions`, but storage, form, preview and errors are
untouched, and the resets after the `setItem` call are never reached. -/
def saveSubmission (persistOk : Bool) (ts : Str) (st : AppState) (f : Form)
    (profileUrl : Option Str) : Except AppState AppState :=
  let next := mkRecord f profileUrl ts :: st.submissions
  if persistOk then
    Except.ok { st with
      submissions := next, storage := some next,
      form := defaultForm, preview := none, errors := Errors.empty }
  else
    Except.error { st with submissions := next }

/-- `handleSubmit`: run `validate`, publish the result via `setErrors`, and
halt when any error key is present (`Object.keys(v).length > 0`); otherwise
build the submitted object — encoding the profile File to a data URL via
`encode` when present, `profileUrl: null` otherwise — and save it. -/
def handleSubmit (persistOk : Bool) (encode : Nat → Str) (ts : Str)
    (st : AppState) : Except AppState AppState :=
  let v := validate st.form
  let st0 := { st with errors := v }
  if v.isEmpty then
    match st.form.profile with
    | none => saveSubmission persistOk ts st0 st.form none
    | some fid => saveSubmission persistOk ts st0 st.form (some (encode fid))
  else
    Except.ok st0

/-- C1: when `validate` returns at least one error, a submit attempt only
publishes the ValidationResult (`setErrors`) and halts: no record is
created, `submissions` and the localStorage snapshot are untouched, the
FormState is exactly as it was, and no exception escapes. -/
theorem invalid_submit_halts (persistOk : Bool) (encode : Nat → Str)
    (ts : Str) (st : AppState) (h : (validate st.form).isEmpty = false) :
    handleSubmit persistOk encode ts st
      = Except.ok { st with errors := validate st.form } := by
  simp [handleSubmit, h]

/-- A concrete state whose form fails validation (`email: "bad"`). -/
def stBad : AppState :=
  { form := { defaultForm with email := strL "bad" }, preview := none,
    errors := Errors.empty, submissions := [], storage := none }

/-- C1 witness: submitting the `email:"bad"` state only publishes the
errors. -/
theorem invalid_submit_halts_witness :
    handleSubmit true (fun _ => []) (strL "t") stBad
      = Except.ok { stBad with errors := validate stBad.form } :=
  invalid_submit_halts true (fun _ => []) (strL "t") stBad (by decide)

/-- The FormState of the C2 scenario: `{name:"Ana", email:"ana@x.com",
gender:"female", agree:true}` with no image. -/
def anaForm : Form :=
  { name := strL "Ana", email := strL "ana@x.com", age := [],
    gender := strL "female", bio := [], hobbies := [], agree := true,
    profile := none }

/-- C2: submitting the Ana form (no image) creates a record with
`profileUrl = none` carrying the submission timestamp, prepends it at index
0 of `submissions`, persists the entire new sequence to storage, resets the
form to the all-default instance, and clears the errors (and preview). -/
theorem ana_submission (encode : Nat → Str) (ts : Str) (pv : Option Nat)
    (errs : Errors) (subs : List Record) (stor : Option (List Record)) :
    handleSubmit true encode ts
        { form := anaForm, preview := pv, errors := errs,
          submissions := subs, storage := stor }
      = Except.ok
        { form := defaultForm, preview := none, errors := Errors.empty,
          submissions := mkRecord anaForm none ts :: subs,
          storage := some (mkRecord anaForm none ts :: subs) } ∧
    (mkRecord anaForm none ts).profileUrl = none ∧
    (mkRecord anaForm none ts).timestamp = ts := by
  refine ⟨?_, rfl, rfl⟩
  have hv : (validate anaForm).isEmpty = true := by decide
  have hp : anaForm.profile = none := rfl
  simp [handleSubmit, hv, hp, saveSubmission]

/-- C8: when the durable-storage write of a submit fails, the failure
propagates as an uncaught error (`Except.error`), the FormState is exactly
as it was (not reset to defaults), and the storage snapshot is unchanged;
nothing is retried. -/
theorem persist_failure_preserves_form (encode : Nat → Str) (ts : Str)
    (st : AppState) (h : (validate st.form).isEmpty = true) :
    ∃ stErr, handleSubmit false encode ts st = Except.error stErr ∧
      stErr.form = st.form ∧ stErr.storage = st.storage ∧
      stErr.errors = validate st.form := by
  cases hp : st.form.profile with
  | none =>
    refine ⟨{ st with
      errors := validate st.form,
      submissions := mkRecord st.form none ts :: st.submissions },
      ?_, rfl, rfl, rfl⟩
    simp [handleSubmit, h, hp, saveSubmission]
  | some fid =>
    refine ⟨{ st with
      errors := validate st.form,
      submissions := mkRecord st.form (some (encode fid)) ts :: st.submissions },
      ?_, rfl, rfl, rfl⟩
    simp [handleSubmit, h, hp, saveSubmission]

/-- A concrete valid state, for witnesses. -/
def stAna : AppState :=
  { form := anaForm, preview := none, errors := Errors.empty,
    submissions := [], storage := none }

/-- C8 witness: a failing persist on the valid Ana state raises and leaves
the form and the storage snapshot untouched. -/
theorem persist_failure_witness :
    ∃ stErr,
      handleSubmit false (fun _ => []) (strL "t") stAna = Except.error stErr ∧
      stErr.form = stAna.form ∧ stErr.storage = stAna.storage ∧
      stErr.errors = validate stAna.form :=
  persist_failure_preserves_form (fun _ => []) (strL "t") stAna (by decide)

/-- C7 (amended): two successful submissions in sequence — the first from state `st`
at clock reading `ts1`, the second after re-filling the form to `f2` at
clock reading `ts2` — produce two records ordered newest-first (indices 0
and 1 of the final sequence), carrying those clock readings as timestamps;
provided the clock readings differ, the timestamps are distinct.  The
timestamp is assigned exactly once, at record creation, from the clock. -/
theorem timestamps_unique (st : AppState) (encode : Nat → Str)
    (ts1 ts2 : Str) (f2 : Form) (st1 st2 : AppState)
    (h1 : (validate st.form).isEmpty = true)
    (h2 : (validate f2).isEmpty = true)
    (hne : ts1 ≠ ts2)
    (e1 : handleSubmit true encode ts1 st = Except.ok st1)
    (e2 : handleSubmit true encode ts2 { st1 with form := f2 } = Except.ok st2) :
    ∃ r2 r1, st2.submissions = r2 :: r1 :: st.submissions ∧
      r2.timestamp = ts2 ∧ r1.timestamp = ts1 ∧
      r2.timestamp ≠ r1.timestamp := by
  cases hp1 : st.form.profile with
  | none =>
    simp only [handleSubmit, h1, hp1, saveSubmission, if_true,
      Except.ok.injEq] at e1
    cases hp2 : f2.profile with
    | none =>
      simp only [handleSubmit, h2, hp2, saveSubmission, if_true,
        Except.ok.injEq, ← e1] at e2
      refine ⟨mkRecord f2 none ts2, mkRecord st.form none ts1, ?_, rfl, rfl, ?_⟩
      · rw [← e2]
      · simpa [mkRecord] using fun hh => hne hh.symm
    | some fid =>
      simp only [handleSubmit, h2, hp2, saveSubmission, if_true,
        Except.ok.injEq, ← e1] at e2
      refine ⟨mkRecord f2 (some (encode fid)) ts2, mkRecord st.form none ts1,
        ?_, rfl, rfl, ?_⟩
      · rw [← e2]
      · simpa [mkRecord] using fun hh => hne hh.symm
  | some fid1 =>
    simp only [handleSubmit, h1, hp1, saveSubmission, if_true,
      Except.ok.injEq] at e1
    cases hp2 : f2.profile with
    | none =>
      simp only [handleSubmit, h2, hp2, saveSubmission, if_true,
        Except.ok.injEq, ← e1] at e2
      refine ⟨mkRecord f2 none ts2, mkRecord st.form (some (encode fid1)) ts1,
        ?_, rfl, rfl, ?_⟩
      · rw [← e2]
      · simpa [mkRecord] using fun hh => hne hh.symm
    | some fid2 =>
      simp only [handleSubmit, h2, hp2, saveSubmission, if_true,
        Except.ok.injEq, ← e1] at e2
      refine ⟨mkRecord f2 (some (encode fid2)) ts2,
        mkRecord st.form (some (encode fid1)) ts1, ?_, rfl, rfl, ?_⟩
      · rw [← e2]
      · simpa [mkRecord] using fun hh => hne hh.symm

/-- Concrete ISO-style clock readings and a trivial encoder, for witnesses. -/
def tsA : Str := strL "2025-01-01T00:00:00.000Z"

def tsB : Str := strL "2025-01-01T00:00:01.000Z"

def encW : Nat → Str := fun _ => []

/-- State after submitting the Ana form once at `tsA`. -/
def stW1 : AppState :=
  { form := defaultForm, preview := none, errors := Errors.empty,
    submissions := [mkRecord anaForm none tsA],
    storage := some [mkRecord anaForm none tsA] }

/-- State after submitting the Ana form again at `tsB`. -/
def stW2 : AppState :=
  { form := defaultForm, preview := none, errors := Errors.empty,
    submissions := [mkRecord anaForm none tsB, mkRecord anaForm none tsA],
    storage := some [mkRecord anaForm none tsB, mkRecord anaForm none tsA] }

/-- C7 witness: two concrete back-to-back submissions of the Ana form at
distinct clock readings yield two records, newest first, with distinct
timestamps. -/
theorem timestamps_unique_witness :
    ∃ r2 r1, stW2.submissions = r2 :: r1 :: stAna.submissions ∧
      r2.timestamp = tsB ∧ r1.timestamp = tsA ∧
      r2.timestamp ≠ r1.timestamp :=
  timestamps_unique stAna encW tsA tsB anaForm stW1 stW2 (by decide) (by decide)
    (by decide) (by rfl) (by rfl)

/-- State after submitting the Ana form twice at the same clock reading
`tsA`. -/
def stW2same : AppState :=
  { form := defaultForm, preview := none, errors := Errors.empty,
    submissions := [mkRecord anaForm none tsA, mkRecord anaForm none tsA],
    storage := some [mkRecord anaForm none tsA, mkRecord anaForm none tsA] }

/-- C7 counterexample: the claim asserts distinct timestamps for any two
records produced by two submissions in sequence.  The timestamp is
`new Date().toISOString()`, which has millisecond resolution, so two
submissions handled within the same millisecond read the same clock value:
submitting the valid Ana form twice at clock reading `tsA` really runs both
submissions to completion and produces two records with identical
timestamps. -/
theorem timestamps_not_unique :
    handleSubmit true encW tsA stAna = Except.ok stW1 ∧
    handleSubmit true encW tsA { stW1 with form := anaForm }
      = Except.ok stW2same ∧
    ∃ r2 r1, stW2same.submissions = r2 :: r1 :: stAna.submissions ∧
      r2.timestamp = r1.timestamp := by
  refine ⟨by rfl, by rfl,
    mkRecord anaForm none tsA, mkRecord anaForm none tsA, rfl, rfl⟩

/-- PreviewHandle lifecycle state: `live` lists the object URLs created by
`URL.createObjectURL` and not yet revoked by `URL.revokeObjectURL`, numbered
by a creation counter; `current` is the handle the last effect run created
(the one whose revocation is registered as the pending cleanup). -/
structure PreviewSt where
  live : List Nat
  current : Option Nat
deriving DecidableEq, Repr

/-- Initial effect state: no handle created yet. -/
def previewInit : PreviewSt × Nat := (⟨[], none⟩, 0)

/-- One run of the `useEffect(..., [form.profile])` body, as React performs
it when `profile` changes: first the cleanup registered by the previous run
revokes that run's object URL (if it created one); then, if the new
`profile` is null, `setPreview(null)` and no cleanup is registered;
otherwise a fresh object URL is created, shown via `setPreview`, and its
revocation is registered as this run's cleanup. -/
def previewStep (p : PreviewSt × Nat) (profile : Option Nat) : PreviewSt × Nat :=
  let live1 := match p.1.current with
    | some h => p.1.live.erase h
    | none => p.1.live
  match profile with
  | none => (⟨live1, none⟩, p.2)
  | some _ => (⟨live1 ++ [p.2], some p.2⟩, p.2 + 1)

/-- The effect state after any finite sequence of `profile` changes. -/
def runPreview (evs : List (Option Nat)) : PreviewSt × Nat :=
  evs.foldl previewStep previewInit

lemma previewStep_inv (p : PreviewSt × Nat) (ev : Option Nat)
    (h : p.1.live = p.1.current.toList) :
    (previewStep p ev).1.live = (previewStep p ev).1.current.toList := by
  cases hc : p.1.current with
  | none =>
    rw [hc] at h
    cases ev with
    | none => simp [previewStep, hc, h]
    | some f => simp [previewStep, hc, h]
  | some hd =>
    rw [hc] at h
    cases ev with
    | none => simp [previewStep, hc, h]
    | some f => simp [previewStep, hc, h]

lemma runPreview_aux (evs : List (Option Nat)) :
    ∀ p : PreviewSt × Nat, p.1.live = p.1.current.toList →
      (evs.foldl previewStep p).1.live
        = (evs.foldl previewStep p).1.current.toList := by
  induction evs with
  | nil =>
    intro p h
    simpa using h
  | cons e rest ih =>
    intro p h
    rw [List.foldl_cons]
    exact ih _ (previewStep_inv p e h)

/-- C9: under any sequence of `profile` changes the set of live (created,
not yet revoked) PreviewHandles is exactly the current one — the handle of
the previous value is revoked by its cleanup before the new effect body
runs — so at most one handle is ever live and no orphaned handles
accumulate; and after a change to null, no handle is live at all. -/
theorem preview_lifecycle (evs : List (Option Nat)) :
    (runPreview evs).1.live = (runPreview evs).1.current.toList ∧
    (runPreview evs).1.live.length ≤ 1 ∧
    (runPreview (evs ++ [none])).1.live = [] ∧
    (runPreview (evs ++ [none])).1.current = none := by
  have hinv : (runPreview evs).1.live = (runPreview evs).1.current.toList :=
    runPreview_aux evs previewInit rfl
  refine ⟨hinv, ?_, ?_, ?_⟩
  · rw [hinv]
    cases (runPreview evs).1.current <;> simp
  · rw [runPreview, List.foldl_append]
    simp only [List.foldl_cons, List.foldl_nil]
    cases hc : (runPreview evs).1.current with
    | none =>
      have hl : (runPreview evs).1.live = [] := by
        rw [hinv, hc]
        rfl
      rw [runPreview] at hc hl
      simp [previewStep, hc, hl]
    | some hd =>
      have hl : (runPreview evs).1.live = [hd] := by
        rw [hinv, hc]
        rfl
      rw [runPreview] at hc hl
      simp [previewStep, hc, hl]
  · rw [runPreview, List.foldl_append]
    simp only [List.foldl_cons, List.foldl_nil]
    rfl

/-- A concrete form with the exponent-form age `"1e3"`, for the C5
witness. -/
def ageE3F : Form := { defaultForm with age := strL "1e3" }

/-- Sanity check of the `Number()` model on an exponent literal:
`Number("1e3") = 1000 > 0`, so no age error is recorded for it. -/
lemma jsNumber_exp_example :
    jsNumber (strL "1e3") = some (JsNum.finite 1 3) ∧
    (JsNum.finite 1 3).gt0 = true ∧
    (validate { defaultForm with age := strL "1e3" }).age = none := by
  refine ⟨by decide, by decide, by decide⟩

/-- C5 witness: for the non-empty age string `"1e3"`, the presence of an
age error is equivalent to `"1e3"` not converting to a strictly positive
number. -/
theorem age_validation_witness :
    (validate ageE3F).age ≠ none ↔
      ¬ ∃ v, jsNumber ageE3F.age = some v ∧ v.gt0 = true :=
  (age_validation ageE3F).2 (by decide)
